import Mathlib

/-!
Shallow embedding of the hierarchical export orchestrator of the
coda-md-export repository: page-hierarchy discovery
(`PageHierarchyService.buildHierarchy` / `discoverPages`), the per-node
export workflow (`NestedExportService.pollAndFetchContent`,
`retryOperation`), the two caches, the batch orchestrator
(`exportAllPagesOptimized`, `exportNestedPages`) and the content combiner
(`combineExportedPages`).  Remote endpoints are modelled as a deterministic
oracle; every remote invocation is recorded in a call trace.  The
cooperative-concurrency fan-outs of the source (child discovery and the
concurrent polling phase) are modelled by the canonical sequential
schedule; the properties proved below do not depend on the interleaving.
Timestamps (`Date` values) are milliseconds as `Nat`; each run takes its
clock value `now` as a parameter.
-/

namespace CodaExport

mutual
/-- `PageHierarchyNode` from nested-export.schema.ts.  The `children` array
is encoded as the mutually inductive `NodeList` so that all traversals are
structurally recursive. -/
inductive PageHierarchyNode where
  | mk (pageId docId name : String) (depth : Nat) (path : String)
      (children : NodeList)

/-- A list of hierarchy nodes (a `children` array of the source). -/
inductive NodeList where
  | nil
  | cons (head : PageHierarchyNode) (tail : NodeList)
end

deriving instance DecidableEq for PageHierarchyNode

def PageHierarchyNode.pageId : PageHierarchyNode → String
  | .mk p _ _ _ _ _ => p

def PageHierarchyNode.docId : PageHierarchyNode → String
  | .mk _ d _ _ _ _ => d

def PageHierarchyNode.name : PageHierarchyNode → String
  | .mk _ _ n _ _ _ => n

def PageHierarchyNode.depth : PageHierarchyNode → Nat
  | .mk _ _ _ d _ _ => d

def PageHierarchyNode.path : PageHierarchyNode → String
  | .mk _ _ _ _ p _ => p

def PageHierarchyNode.children : PageHierarchyNode → NodeList
  | .mk _ _ _ _ _ c => c

/-- Plain-list view of a `NodeList`. -/
def NodeList.toList : NodeList → List PageHierarchyNode
  | .nil => []
  | .cons n rest => n :: rest.toList

mutual
/-- Pre-order listing: the node first, then each child subtree in original
order (the traversal order of `combineExportedPages` and of the
`countPages` walk in `discoverPages`). -/
def preorder : PageHierarchyNode → List PageHierarchyNode
  | .mk p d n dep pa children => .mk p d n dep pa children :: preorderList children

def preorderList : NodeList → List PageHierarchyNode
  | .nil => []
  | .cons n rest => preorder n ++ preorderList rest
end

/-! ### Association-list maps (the `Map` objects of the source) -/

/-- `Map.get`: first binding of the key, if any. -/
def alookup {β : Type} (k : String) : List (String × β) → Option β
  | [] => none
  | (k1, v) :: rest => if k1 = k then some v else alookup k rest

/-- `Map.set`: replace the existing binding or append a new one. -/
def aset {β : Type} (k : String) (v : β) : List (String × β) → List (String × β)
  | [] => [(k, v)]
  | (k1, v1) :: rest => if k1 = k then (k, v) :: rest else (k1, v1) :: aset k v rest

/-- `Map.delete`. -/
def aerase {β : Type} (k : String) (l : List (String × β)) : List (String × β) :=
  l.filter (fun p => p.1 ≠ k)

/-! ### Remote interface and the call trace -/

/-- Export job status (`PageContentExportStatusSchema`). -/
inductive ExportStatus where
  | inProgress
  | complete
  | failed
deriving DecidableEq

/-- `Page` response of `getPage`, restricted to the fields the orchestrator
reads: `id`, `name`, `children` (child page ids) and `updatedAt`. -/
structure ApiPage where
  id : String
  name : String
  children : List String
  updatedAt : Option Nat
deriving DecidableEq

/-- `PageContentExportStatusResponse`: status plus optional download link
and error message. -/
structure ExportStatusResponse where
  status : ExportStatus
  downloadLink : Option String
  errMsg : Option String
deriving DecidableEq

/-- One remote invocation, as recorded in the run trace. -/
inductive ApiCall where
  | getPage (pageId : String)
  | beginExport (pageId : String)
  | getStatus (exportId : String)
  | fetchContent (link : String)
deriving DecidableEq

/-- Deterministic oracle standing for the remote service.  Fallible
endpoints return `Except` (an `error` is a thrown/rejected call); the
retried endpoints are indexed by the attempt number so that an operation
may fail on some attempts and succeed on others. -/
structure Oracle where
  getPage : String → Except String ApiPage
  beginExport : String → Nat → Except String String
  getStatus : String → Nat → Except String ExportStatusResponse
  fetchContent : String → Nat → Except String String

/-- `Configuration` blob returned by `storage.getConfiguration`. -/
structure Configuration where
  isConfigured : Bool
  apiKey : String

/-- The truthiness test `config.isConfigured && config.apiKey` guarding
both `discoverPages` and `exportAllPagesOptimized`. -/
def Configuration.ok (c : Configuration) : Bool :=
  c.isConfigured && c.apiKey != ""

/-! ### The two caches of NestedExportService -/

/-- A `contentCache` entry: content, fetch time, page version marker. -/
structure ContentEntry where
  content : String
  fetchedAt : Nat
  pageUpdatedAt : Option Nat
deriving DecidableEq

/-- An `exportJobCache` entry: export job id and submission time. -/
structure JobEntry where
  exportId : String
  submittedAt : Nat
deriving DecidableEq

/-- The mutable caches of a `NestedExportService` instance. -/
structure CacheState where
  contentCache : List (String × ContentEntry)
  jobCache : List (String × JobEntry)
deriving DecidableEq

/-- `NestedExportService.isCacheValid`: version comparison when both
markers exist, otherwise a 5-minute freshness window on the fetch time. -/
def isCacheValid (now : Nat) (cc : List (String × ContentEntry))
    (pageId : String) (pageUpdatedAt : Option Nat) : Bool :=
  match alookup pageId cc with
  | none => false
  | some cached =>
    match pageUpdatedAt, cached.pageUpdatedAt with
    | some pu, some cu => decide (pu ≤ cu)
    | _, _ => decide (now - 5 * 60 * 1000 < cached.fetchedAt)

/-- `NestedExportService.getCachedContent`; note `cached?.content || null`
turns cached empty content into a miss. -/
def getCachedContent (now : Nat) (cc : List (String × ContentEntry))
    (pageId : String) (pageUpdatedAt : Option Nat) : Option String :=
  if isCacheValid now cc pageId pageUpdatedAt then
    match alookup pageId cc with
    | some cached => if cached.content = "" then none else some cached.content
    | none => none
  else none

/-- `NestedExportService.setCachedContent`. -/
def setCachedContent (now : Nat) (cc : List (String × ContentEntry))
    (pageId content : String) (pageUpdatedAt : Option Nat) :
    List (String × ContentEntry) :=
  aset pageId ⟨content, now, pageUpdatedAt⟩ cc

/-- `NestedExportService.getCachedJobId`: entries older than 10 minutes are
deleted on read and reported as misses. -/
def getCachedJobId (now : Nat) (jc : List (String × JobEntry))
    (pageId : String) : Option String × List (String × JobEntry) :=
  match alookup pageId jc with
  | none => (none, jc)
  | some cached =>
    if cached.submittedAt < now - 10 * 60 * 1000 then (none, aerase pageId jc)
    else (some cached.exportId, jc)

/-- `NestedExportService.setCachedJobId`. -/
def setCachedJobId (now : Nat) (jc : List (String × JobEntry))
    (pageId exportId : String) : List (String × JobEntry) :=
  aset pageId ⟨exportId, now⟩ jc

/-! ### retryOperation -/

/-- One run of the `for attempt in 0..=maxRetries` loop of
`NestedExportService.retryOperation`, starting at `attempt` with
`remaining` attempts allowed.  Returns the outcome, the number of times
the operation was invoked, and the list of back-off delays slept between
attempts. -/
def retryAux {α : Type} (op : Nat → Except String α) (baseDelay : Nat) :
    (attempt remaining : Nat) → Except String α × Nat × List Nat
  | _, 0 => (.error "Operation failed after retries", 0, [])
  | attempt, remaining + 1 =>
    match op attempt with
    | .ok v => (.ok v, 1, [])
    | .error e =>
      if remaining = 0 then (.error e, 1, [])
      else
        let d := baseDelay * 2 ^ attempt
        let r := retryAux op baseDelay (attempt + 1) remaining
        (r.1, r.2.1 + 1, d :: r.2.2)

/-- `NestedExportService.retryOperation`: attempts `0..=maxRetries`, delay
`baseDelay * 2 ^ attempt` between attempts, last failure propagated. -/
def retryOperation {α : Type} (op : Nat → Except String α)
    (maxRetries baseDelay : Nat) : Except String α × Nat × List Nat :=
  retryAux op baseDelay 0 (maxRetries + 1)

/-! ### pollAndFetchContent -/

/-- `status.error || 'Export failed'` (empty strings are falsy). -/
def failureMessage (e : Option String) : String :=
  match e with
  | some s => if s = "" then "Export failed" else s
  | none => "Export failed"

/-- The `while attempts < maxAttempts` loop of
`NestedExportService.pollAndFetchContent`, counted down by `remaining`
(`attempts + remaining = 60` from the top-level call; `attempt + 1` is the
value of `attempts` inside the current iteration).  Every error raised in
the loop body — a thrown remote-job failure, a missing download link, a
rejected status call, or an exhausted content-fetch retry — is caught by
the surrounding `catch`, which rethrows only on the final attempt and
otherwise waits and polls again.  Returns the outcome and the remote-call
trace. -/
def pollLoop (o : Oracle) (exportId : String) :
    (attempt remaining : Nat) → Except String String × List ApiCall
  | _, 0 => (.error "Export timed out after 60 attempts", [])
  | attempt, remaining + 1 =>
    let retryOrFail (e : String) (tr : List ApiCall) :
        Except String String × List ApiCall :=
      if remaining = 0 then (.error e, tr)
      else
        let r := pollLoop o exportId (attempt + 1) remaining
        (r.1, tr ++ r.2)
    match o.getStatus exportId (attempt + 1) with
    | .error e => retryOrFail e [.getStatus exportId]
    | .ok st =>
      match st.status with
      | .complete =>
        match st.downloadLink with
        | none =>
          retryOrFail "Export completed but no download link provided"
            [.getStatus exportId]
        | some link =>
          let fr := retryOperation (fun a => o.fetchContent link a) 3 1000
          let tr := .getStatus exportId ::
            List.replicate fr.2.1 (ApiCall.fetchContent link)
          match fr.1 with
          | .ok content => (.ok content, tr)
          | .error e => retryOrFail e tr
      | .failed => retryOrFail (failureMessage st.errMsg) [.getStatus exportId]
      | .inProgress =>
        let r := pollLoop o exportId (attempt + 1) remaining
        (r.1, .getStatus exportId :: r.2)

/-- `NestedExportService.pollAndFetchContent` for one export job:
`maxAttempts = 60` status polls, content fetched under
`retryOperation (·, 3, 1000)` once the status is `complete`. -/
def pollAndFetchContent (o : Oracle) (exportId : String) :
    Except String String × List ApiCall :=
  pollLoop o exportId 0 60

/-! ### combineExportedPages -/

/-- The banner pushed before each page's content:
80 `=`, `Page:`, `Path:`, `Depth:`, 80 `=`. -/
def separator (name path : String) (depth : Nat) : String :=
  "\n\n" ++ String.mk (List.replicate 80 (Char.ofNat 61)) ++ "\n" ++
    "Page: " ++ name ++ "\n" ++
    "Path: " ++ path ++ "\n" ++
    "Depth: " ++ toString depth ++ "\n" ++
    String.mk (List.replicate 80 (Char.ofNat 61)) ++ "\n\n"

mutual
/-- The `parts` pushed by the `traverse` closure of
`NestedExportService.combineExportedPages`: for each node in pre-order
whose `pageId` has truthy content in the map (present and non-empty), a
separator followed by the content. -/
def combineParts (exportedPages : String → Option String) :
    PageHierarchyNode → List String
  | .mk pid _ nm dep pa children =>
    (match exportedPages pid with
     | some content =>
       if content = "" then [] else [separator nm pa dep, content]
     | none => []) ++ combinePartsList exportedPages children

def combinePartsList (exportedPages : String → Option String) :
    NodeList → List String
  | .nil => []
  | .cons n rest =>
    combineParts exportedPages n ++ combinePartsList exportedPages rest
end

/-- `NestedExportService.combineExportedPages`: `parts.join('')`. -/
def combineExportedPages (exportedPages : String → Option String)
    (hierarchy : PageHierarchyNode) : String :=
  String.join (combineParts exportedPages hierarchy)

/-! ### PageHierarchyService: buildHierarchy / discoverPages -/

/-- Fetch log of a discovery: each `getPage` call with the tree depth of
the node it was issued for, in call order. -/
abbrev FetchLog := List (String × Nat)

/-- An error aborting discovery: a rejected `getPage` (whose message
propagates to the top-level catch) or, a model artifact, exhaustion of the
recursion fuel. -/
inductive DiscErr where
  | fetchFailed (msg : String)
  | outOfFuel
deriving DecidableEq

/-- The node returned for a pageId already in the visited set. -/
def circularNode (pageId docId : String) (depth : Nat) (path : String) :
    PageHierarchyNode :=
  .mk pageId docId "(Circular Reference)" depth path .nil

/-- The `maxDepth === 'unlimited' || currentDepth < maxDepth` guard
(`NestedExportDepth` is a number or `'unlimited'`, modelled as
`Option Nat` with `none` for `'unlimited'`). -/
def shouldRecurse (maxDepth : Option Nat) (currentDepth : Nat) : Bool :=
  match maxDepth with
  | none => true
  | some d => decide (currentDepth < d)

/-- The child loop of `PageHierarchyService.buildHierarchy`: each child
reference gets path `path ++ "." ++ (index + 1)` and depth
`currentDepth + 1`, threading the shared visited set; `build` is the
recursive call at the next fuel level.  Returns the child nodes in
original order, the final visited set, and the concatenated fetch logs. -/
def buildChildrenAux
    (build : String → Nat → String → List String →
      Except DiscErr (PageHierarchyNode × List String × FetchLog))
    (childDepth : Nat) (parentPath : String) :
    (childIds : List String) → (idx : Nat) → (visited : List String) →
      Except DiscErr (NodeList × List String × FetchLog)
  | [], _, visited => .ok (.nil, visited, [])
  | c :: rest, idx, visited =>
    match build c childDepth (parentPath ++ "." ++ toString idx) visited with
    | .error e => .error e
    | .ok (node, visited1, log1) =>
      match buildChildrenAux build childDepth parentPath rest (idx + 1) visited1 with
      | .error e => .error e
      | .ok (nodes, visited2, log2) => .ok (.cons node nodes, visited2, log1 ++ log2)

/-- `PageHierarchyService.buildHierarchy`.  A pageId already in the shared
visited set yields a childless `(Circular Reference)` placeholder with no
fetch; otherwise the page is marked visited, fetched, and its children are
traversed when `shouldRecurse` holds and the children array is non-empty.
The source recursion is bounded by the visited set; the model adds `fuel`
(one unit per recursion level) to make the recursion structural.  The
source fans the children out concurrently over the shared visited set;
the model runs them in array order. -/
def buildHierarchy (o : Oracle) (docId : String) (maxDepth : Option Nat) :
    (fuel : Nat) → (pageId : String) → (currentDepth : Nat) → (path : String) →
      (visited : List String) →
      Except DiscErr (PageHierarchyNode × List String × FetchLog)
  | 0, _, _, _, _ => .error .outOfFuel
  | fuel + 1, pageId, currentDepth, path, visited =>
    if pageId ∈ visited then
      .ok (circularNode pageId docId currentDepth path, visited, [])
    else
      let visited1 := pageId :: visited
      match o.getPage pageId with
      | .error msg => .error (.fetchFailed msg)
      | .ok page =>
        if shouldRecurse maxDepth currentDepth && !page.children.isEmpty then
          match buildChildrenAux
              (fun pid d pa v => buildHierarchy o docId maxDepth fuel pid d pa v)
              (currentDepth + 1) path page.children 1 visited1 with
          | .error e => .error e
          | .ok (children, visited2, log) =>
            .ok (.mk page.id docId page.name currentDepth path children,
              visited2, (pageId, currentDepth) :: log)
        else
          .ok (.mk page.id docId page.name currentDepth path .nil,
            visited1, [(pageId, currentDepth)])

/-- `PageCountResult` (without the unused `byDepth` aggregate's insertion
order: it is reported as an association list built in walk order). -/
structure PageCountResult where
  totalPages : Nat
  byDepth : List (Nat × Nat)
  hierarchy : PageHierarchyNode
  maxDepth : Nat
deriving DecidableEq

/-- Bump a depth count in the `byDepth` record. -/
def bumpDepth (d : Nat) : List (Nat × Nat) → List (Nat × Nat)
  | [] => [(d, 1)]
  | (k, c) :: rest => if k = d then (k, c + 1) :: rest else (k, c) :: bumpDepth d rest

/-- The `countPages` walk of `discoverPages` (a pre-order traversal
accumulating the total, the per-depth counts and the maximum depth). -/
def countPages (hierarchy : PageHierarchyNode) : PageCountResult :=
  (preorder hierarchy).foldl
    (fun acc n =>
      { acc with
        totalPages := acc.totalPages + 1
        byDepth := bumpDepth n.depth acc.byDepth
        maxDepth := max acc.maxDepth n.depth })
    { totalPages := 0, byDepth := [], hierarchy := hierarchy, maxDepth := 0 }

/-- `PageHierarchyService.discoverPages`: configuration check, hierarchy
construction from a fresh visited set, then the counting walk.  Also
returns the discovery fetch log. -/
def discoverPages (o : Oracle) (config : Configuration) (docId pageId : String)
    (maxDepth : Option Nat) (fuel : Nat) :
    Except String (PageCountResult × FetchLog) :=
  if !config.ok then .error "API key not configured"
  else
    match buildHierarchy o docId maxDepth fuel pageId 0 "0" [] with
    | .error (.fetchFailed msg) => .error msg
    | .error .outOfFuel => .error "discovery out of fuel"
    | .ok (hierarchy, _, log) => .ok (countPages hierarchy, log)

/-! ### NestedExportService: the batch orchestrator -/

/-- `FailedPageExport` from nested-export.schema.ts. -/
structure FailedPageExport where
  pageId : String
  pageName : String
  path : String
  errMsg : String
deriving DecidableEq

/-- `CombinedExportResult` from nested-export.schema.ts. -/
structure CombinedExportResult where
  success : Bool
  totalPages : Nat
  successfulPages : Nat
  failedPages : List FailedPageExport
  combinedContent : String
  errMsg : Option String
deriving DecidableEq

/-- The queue loop of `PageHierarchyService.getFlatPageList`, with fuel
(the loop shifts one node per iteration, so the tree's node count
suffices). -/
def flatListAux : (fuel : Nat) → (queue : List PageHierarchyNode) →
    List PageHierarchyNode
  | 0, _ => []
  | _, [] => []
  | fuel + 1, n :: queue => n :: flatListAux fuel (queue ++ n.children.toList)

/-- `PageHierarchyService.getFlatPageList`: breadth-first flattening of the
hierarchy (the submission order of the orchestrator). -/
def getFlatPageList (hierarchy : PageHierarchyNode) : List PageHierarchyNode :=
  flatListAux (preorder hierarchy).length [hierarchy]

/-- A phase-1 outcome queued for polling: the page, the export job id, and
the page's `updatedAt` marker. -/
structure PendingJob where
  page : PageHierarchyNode
  exportId : String
  pageUpdatedAt : Option Nat
deriving DecidableEq

/-- The accumulator of the phase-1 submission loop. -/
structure Phase1State where
  jobs : List PendingJob
  failed : List FailedPageExport
  successful : List (String × String)
  caches : CacheState
  trace : List ApiCall
deriving DecidableEq

/-- One iteration of the sequential submission loop of
`NestedExportService.exportAllPagesOptimized`: fetch the page details,
try the content cache, then the job cache, then submit a fresh export job
under `retryOperation (·, 3, 1000)`; any rejection in the iteration is
caught and recorded as a `Failed to submit` entry. -/
def phase1Step (o : Oracle) (now : Nat) (acc : Phase1State)
    (page : PageHierarchyNode) : Phase1State :=
  match o.getPage page.pageId with
  | .error msg =>
    { acc with
      failed := acc.failed ++
        [⟨page.pageId, page.name, page.path, "Failed to submit: " ++ msg⟩]
      trace := acc.trace ++ [.getPage page.pageId] }
  | .ok details =>
    let pu := details.updatedAt
    let trace1 := acc.trace ++ [.getPage page.pageId]
    match getCachedContent now acc.caches.contentCache page.pageId pu with
    | some cached =>
      { acc with
        successful := aset page.pageId cached acc.successful
        trace := trace1 }
    | none =>
      match getCachedJobId now acc.caches.jobCache page.pageId with
      | (some jobId, jc1) =>
        { acc with
          jobs := acc.jobs ++ [⟨page, jobId, pu⟩]
          caches := { acc.caches with jobCache := jc1 }
          trace := trace1 }
      | (none, jc1) =>
        let r := retryOperation (fun a => o.beginExport page.pageId a) 3 1000
        let trace2 := trace1 ++ List.replicate r.2.1 (ApiCall.beginExport page.pageId)
        match r.1 with
        | .ok exportId =>
          { acc with
            jobs := acc.jobs ++ [⟨page, exportId, pu⟩]
            caches :=
              { acc.caches with jobCache := setCachedJobId now jc1 page.pageId exportId }
            trace := trace2 }
        | .error e =>
          { acc with
            failed := acc.failed ++
              [⟨page.pageId, page.name, page.path, "Failed to submit: " ++ e⟩]
            caches := { acc.caches with jobCache := jc1 }
            trace := trace2 }

/-- The accumulator of the phase-2 polling phase. -/
structure Phase2State where
  failed : List FailedPageExport
  successful : List (String × String)
  caches : CacheState
  trace : List ApiCall
deriving DecidableEq

/-- Resolution of one pending job in the polling phase: a success is added
to the successful map and the content cache, a rejection becomes a
`FailedPageExport`.  The source resolves the jobs concurrently; the model
uses job-submission order, which the claims do not distinguish. -/
def phase2Step (o : Oracle) (now : Nat) (acc : Phase2State) (job : PendingJob) :
    Phase2State :=
  let r := pollAndFetchContent o job.exportId
  match r.1 with
  | .ok content =>
    { acc with
      successful := aset job.page.pageId content acc.successful
      caches :=
        { acc.caches with
          contentCache :=
            setCachedContent now acc.caches.contentCache job.page.pageId content
              job.pageUpdatedAt }
      trace := acc.trace ++ r.2 }
  | .error e =>
    { acc with
      failed := acc.failed ++ [⟨job.page.pageId, job.page.name, job.page.path, e⟩]
      trace := acc.trace ++ r.2 }

/-- `NestedExportService.exportAllPagesOptimized`: configuration check,
breadth-first flatten, sequential cache-check/submission loop, then the
polling phase over the pending jobs.  Returns the successful map, the
failure list, the final caches and the remote-call trace. -/
def exportAllPagesOptimized (o : Oracle) (config : Configuration) (now : Nat)
    (caches : CacheState) (hierarchy : PageHierarchyNode) :
    Except String Phase2State :=
  if !config.ok then .error "API key not configured"
  else
    let allPages := getFlatPageList hierarchy
    let p1 := allPages.foldl (phase1Step o now)
      ⟨[], [], [], caches, []⟩
    let p2 := p1.jobs.foldl (phase2Step o now)
      ⟨p1.failed, p1.successful, p1.caches, p1.trace⟩
    .ok p2

/-- The non-exceptional pipeline of `NestedExportService.exportNestedPages`
(the body of its `try`): discovery, batch export, combination, and the
assembly of the `CombinedExportResult`. -/
def runExport (o : Oracle) (config : Configuration) (now : Nat)
    (caches : CacheState) (pageId : String) (docId : String)
    (depth : Option Nat) (fuel : Nat) :
    Except String (CombinedExportResult × CacheState × List ApiCall) :=
  match discoverPages o config docId pageId depth fuel with
  | .error e => .error e
  | .ok (pageCount, discLog) =>
    match exportAllPagesOptimized o config now caches pageCount.hierarchy with
    | .error e => .error e
    | .ok results =>
      let combinedContent :=
        combineExportedPages (fun pid => alookup pid results.successful)
          pageCount.hierarchy
      .ok
        ({ success := results.failed.length = 0
           totalPages := pageCount.totalPages
           successfulPages := results.successful.length
           failedPages := results.failed
           combinedContent := combinedContent
           errMsg :=
             if results.failed.length > 0 then
               some (toString results.failed.length ++ " pages failed to export")
             else none },
          results.caches,
          discLog.map (fun e => ApiCall.getPage e.1) ++ results.trace)

/-- `NestedExportService.exportNestedPages`: the `try`/`catch` wrapper.  A
rejection anywhere in the pipeline is caught and converted into the fixed
all-zero failure result carrying the error message; the caches keep their
pre-run value in the model (the trace of an aborted run is not
reported). -/
def exportNestedPages (o : Oracle) (config : Configuration) (now : Nat)
    (caches : CacheState) (pageId : String) (docId : String)
    (depth : Option Nat) (fuel : Nat) :
    CombinedExportResult × CacheState × List ApiCall :=
  match runExport o config now caches pageId docId depth fuel with
  | .ok r => r
  | .error msg =>
    ({ success := false
       totalPages := 0
       successfulPages := 0
       failedPages := []
       combinedContent := ""
       errMsg := some msg },
      caches, [])

/-! ### Helper lemmas: the combiner as a pre-order flat map -/

/-- The parts contributed by a single node: a separator plus the content
when the map holds truthy content for its pageId, nothing otherwise. -/
def nodeParts (m : String → Option String) (n : PageHierarchyNode) : List String :=
  match m n.pageId with
  | some content =>
    if content = "" then [] else [separator n.name n.path n.depth, content]
  | none => []

mutual
theorem combineParts_eq_flatMap (m : String → Option String)
    (t : PageHierarchyNode) :
    combineParts m t = (preorder t).flatMap (nodeParts m) := by
  cases t with
  | mk p d n dep pa c =>
    rw [combineParts, preorder, List.flatMap_cons,
      combinePartsList_eq_flatMap m c]
    rfl

theorem combinePartsList_eq_flatMap (m : String → Option String)
    (l : NodeList) :
    combinePartsList m l = (preorderList l).flatMap (nodeParts m) := by
  cases l with
  | nil => rfl
  | cons n rest =>
    rw [combinePartsList, preorderList, List.flatMap_append,
      combineParts_eq_flatMap m n, combinePartsList_eq_flatMap m rest]
end

/-- Sending empty-string content to `none` before lookup. -/
def squashEmpty (m : String → Option String) : String → Option String :=
  fun pid =>
    match m pid with
    | some c => if c = "" then none else some c
    | none => none

theorem nodeParts_squashEmpty (m : String → Option String)
    (n : PageHierarchyNode) : nodeParts (squashEmpty m) n = nodeParts m n := by
  unfold nodeParts squashEmpty
  cases m n.pageId with
  | none => rfl
  | some c =>
    by_cases hc : c = "" <;> simp [hc]

theorem flatMap_nodeParts_of_truthy (m : String → Option String)
    (l : List PageHierarchyNode)
    (h : ∀ n ∈ l, ∃ c, m n.pageId = some c ∧ c ≠ "") :
    l.flatMap (nodeParts m) =
      l.flatMap
        (fun n => [separator n.name n.path n.depth, (m n.pageId).getD ""]) ∧
    (l.flatMap (nodeParts m)).length = 2 * l.length := by
  induction l with
  | nil => simp
  | cons n rest ih =>
    obtain ⟨c, hc, hne⟩ := h n (by simp)
    obtain ⟨ih1, ih2⟩ := ih (fun x hx => h x (by simp [hx]))
    refine ⟨?_, ?_⟩
    · simp [List.flatMap_cons, nodeParts, hc, hne, ih1]
    · simp [List.flatMap_cons, nodeParts, hc, hne, ih2]
      omega

/-- A one-node hierarchy and a map sending its pageId to empty content. -/
def oneNode : PageHierarchyNode := .mk "a" "d" "A" 0 "0" .nil

def emptyContentMap : String → Option String :=
  fun pid => if pid = "a" then some "" else none

/-- C3, counterexample: in a one-node tree whose (only) pageId is mapped to
its content `""`, the combined document holds 0 banner+content blocks, not
the N = 1 the claim requires: the truthiness check drops nodes whose
exported content is the empty string. -/
theorem spec_C3_counterexample :
    emptyContentMap oneNode.pageId = some "" ∧
    preorder oneNode = [oneNode] ∧
    combineParts emptyContentMap oneNode = [] ∧
    (combineParts emptyContentMap oneNode).length ≠ 2 * (preorder oneNode).length := by
  decide

/-- C3, amended: for a tree with N nodes that all export successfully with
non-empty content (each node's pageId mapped to its non-empty content),
the parts list of `combineExportedPages` is exactly the pre-order flat map
of banner-plus-content pairs — N blocks, root first, then each child
subtree in original order — and has length 2 N.  The output depends only
on the content map, hence not on export completion order. -/
theorem spec_C3_amended (m : String → Option String) (t : PageHierarchyNode)
    (h : ∀ n ∈ preorder t, ∃ c, m n.pageId = some c ∧ c ≠ "") :
    combineParts m t =
      (preorder t).flatMap
        (fun n => [separator n.name n.path n.depth, (m n.pageId).getD ""]) ∧
    (combineParts m t).length = 2 * (preorder t).length := by
  rw [combineParts_eq_flatMap]
  exact flatMap_nodeParts_of_truthy m (preorder t) h

/-- A one-node hierarchy carrying non-empty content "X". -/
def xContentMap : String → Option String :=
  fun pid => if pid = "a" then some "X" else none

/-- Witness for C3 at a concrete input. -/
theorem spec_C3_witness :
    combineParts xContentMap oneNode =
      (preorder oneNode).flatMap
        (fun n => [separator n.name n.path n.depth, (xContentMap n.pageId).getD ""]) ∧
    (combineParts xContentMap oneNode).length = 2 * (preorder oneNode).length :=
  spec_C3_amended xContentMap oneNode
    (fun n hn => ⟨"X", by
      have : n = oneNode := by
        simpa [oneNode, preorder, preorderList] using hn
      subst this
      exact ⟨rfl, by decide⟩⟩)

/-- C4: against an operation failing on every attempt,
`retryOperation(op, 3, 1000)` invokes it exactly 4 times (attempts
0..3), sleeps 1000, 2000, 4000 ms between attempts
(`baseDelay * 2 ^ attempt`), and propagates the attempt-3 failure
verbatim. -/
theorem spec_C4_retry_exhaustion {α : Type} (op : Nat → Except String α)
    (errs : Nat → String) (h : ∀ i, op i = .error (errs i)) :
    retryOperation op 3 1000 = (.error (errs 3), 4, [1000, 2000, 4000]) := by
  simp [retryOperation, retryAux, h]

def c4op : Nat → Except String Unit := fun i => .error (toString i)

/-- Witness for C4 at a concrete always-failing operation. -/
theorem spec_C4_witness :
    retryOperation c4op 3 1000 = (.error "3", 4, [1000, 2000, 4000]) :=
  spec_C4_retry_exhaustion c4op (fun i => toString i) (fun _ => rfl)

/-- C9: combining treats empty-string content exactly like absent content
(`squashEmpty` erases empty entries without changing the output), and a
node whose pageId maps to `""` contributes neither banner nor content —
only its children's parts appear. -/
theorem spec_C9_empty_content_skipped (m : String → Option String)
    (t : PageHierarchyNode) :
    combineExportedPages m t = combineExportedPages (squashEmpty m) t ∧
    (m t.pageId = some "" →
      combineParts m t = combinePartsList m t.children) := by
  constructor
  · unfold combineExportedPages
    rw [combineParts_eq_flatMap, combineParts_eq_flatMap]
    have hfun : nodeParts (squashEmpty m) = nodeParts m :=
      funext (nodeParts_squashEmpty m)
    rw [hfun]
  · cases t with
    | mk p d n dep pa c =>
      intro h
      rw [combineParts]
      simp only [PageHierarchyNode.pageId] at h
      simp [h, PageHierarchyNode.children]

/-- Witness for C9 at a concrete input: a successfully exported but empty
page contributes nothing beyond its children's parts. -/
theorem spec_C9_witness :
    combineParts emptyContentMap oneNode =
      combinePartsList emptyContentMap oneNode.children :=
  (spec_C9_empty_content_skipped emptyContentMap oneNode).2 rfl

/-! ### The poll loop on a persistently failed job -/

theorem pollLoop_persistent_failure (o : Oracle) (eid e : String)
    (dl : Nat → Option String)
    (h : ∀ a, o.getStatus eid a = .ok ⟨.failed, dl a, some e⟩) (he : e ≠ "") :
    ∀ rem att, 1 ≤ rem →
      pollLoop o eid att rem =
        (.error e, List.replicate rem (.getStatus eid)) := by
  intro rem
  induction rem with
  | zero => intro att h1; omega
  | succ r ih =>
    intro att _
    by_cases hr : r = 0
    · subst hr
      simp [pollLoop, h (att + 1), failureMessage, he]
    · have h1 : 1 ≤ r := Nat.one_le_iff_ne_zero.mpr hr
      simp [pollLoop, h (att + 1), failureMessage, he, hr, ih (att + 1) h1,
        List.replicate_succ]

/-- An oracle whose every export-status poll reports the job failed. -/
def failOracle : Oracle where
  getPage := fun _ => .error "unused"
  beginExport := fun _ _ => .error "unused"
  getStatus := fun _ _ => .ok ⟨.failed, none, some "boom"⟩
  fetchContent := fun _ _ => .error "unused"

/-- C2, counterexample: when every poll reports status `failed` with error
`boom`, `pollAndFetchContent` performs 60 GetExportStatus calls — not the
single call the claim allows — before failing the node: the thrown
remote-job failure lands in the poll loop's catch-all, which waits and
polls again on every non-final attempt. -/
theorem spec_C2_counterexample :
    pollAndFetchContent failOracle "e1" =
      (.error "boom", List.replicate 60 (.getStatus "e1")) ∧
    (List.replicate 60 (ApiCall.getStatus "e1")).length ≠ 1 :=
  ⟨pollLoop_persistent_failure failOracle "e1" "boom" (fun _ => none)
      (fun _ => rfl) (by decide) 60 0 (by omega),
    by decide⟩

/-- C2, amended: a poll status of `failed` makes the workflow throw the
reported error, but the throw is handled like a transient poll error:
unless it occurred on the final attempt, the loop waits and polls again.
A persistently failed job is therefore polled `maxAttempts = 60` times and
the node then fails with the reported error. -/
theorem spec_C2_amended (o : Oracle) (eid e : String) (dl : Nat → Option String)
    (h : ∀ a, o.getStatus eid a = .ok ⟨.failed, dl a, some e⟩) (he : e ≠ "") :
    pollAndFetchContent o eid =
      (.error e, List.replicate 60 (.getStatus eid)) :=
  pollLoop_persistent_failure o eid e dl h he 60 0 (by omega)

/-- Witness for C2 at the concrete always-failed oracle. -/
theorem spec_C2_witness :
    pollAndFetchContent failOracle "e1" =
      (.error "boom", List.replicate 60 (.getStatus "e1")) :=
  spec_C2_amended failOracle "e1" "boom" (fun _ => none) (fun _ => rfl)
    (by decide)

/-! ### The top-level try/catch -/

/-- C10: whenever any phase of the pipeline throws, `exportNestedPages`
returns exactly the all-zero failure result — `success = false`,
`totalPages = successfulPages = 0`, empty `failedPages`, empty
`combinedContent` — carrying the thrown error's message, regardless of
what had been discovered or exported before the throw. -/
theorem spec_C10_catch_result (o : Oracle) (config : Configuration)
    (now : Nat) (caches : CacheState) (pid docId : String)
    (depth : Option Nat) (fuel : Nat) (msg : String)
    (h : runExport o config now caches pid docId depth fuel = .error msg) :
    exportNestedPages o config now caches pid docId depth fuel =
      ({ success := false, totalPages := 0, successfulPages := 0,
         failedPages := [], combinedContent := "", errMsg := some msg },
        caches, []) := by
  unfold exportNestedPages
  rw [h]

/-- An oracle rejecting every request, and an unconfigured store. -/
def nullOracle : Oracle where
  getPage := fun _ => .error "nope"
  beginExport := fun _ _ => .error "nope"
  getStatus := fun _ _ => .error "nope"
  fetchContent := fun _ _ => .error "nope"

def badConfig : Configuration := ⟨false, ""⟩

/-- Witness for C10: a run aborted by the missing API key. -/
theorem spec_C10_witness :
    exportNestedPages nullOracle badConfig 0 ⟨[], []⟩ "p" "d" none 1 =
      ({ success := false, totalPages := 0, successfulPages := 0,
         failedPages := [], combinedContent := "",
         errMsg := some "API key not configured" },
        ⟨[], []⟩, []) :=
  spec_C10_catch_result nullOracle badConfig 0 ⟨[], []⟩ "p" "d" none 1
    "API key not configured" rfl

/-- C1, counterexample: a run whose pipeline throws (here: missing API
key) returns `success = false` together with an empty `failedPages`, so
`success = (failedPages is empty)` does not hold of every run. -/
theorem spec_C1_counterexample :
    ¬((exportNestedPages nullOracle badConfig 0 ⟨[], []⟩ "p" "d" none 1).1.success
          = true ↔
      (exportNestedPages nullOracle badConfig 0 ⟨[], []⟩ "p" "d" none 1).1.failedPages
          = []) := by
  decide

/-- C1, amended: in every run whose pipeline completes without throwing,
the result has `success = true` iff `failedPages` is empty (partial
failures are reported there); a run that throws instead returns
`success = false` with empty `failedPages` (see C10). -/
theorem spec_C1_success_iff_no_failures (o : Oracle) (config : Configuration)
    (now : Nat) (caches : CacheState) (pid docId : String)
    (depth : Option Nat) (fuel : Nat)
    (out : CombinedExportResult × CacheState × List ApiCall)
    (h : runExport o config now caches pid docId depth fuel = .ok out) :
    out.1.success = true ↔ out.1.failedPages = [] := by
  unfold runExport at h
  split at h
  · exact absurd h (by simp)
  · split at h
    · exact absurd h (by simp)
    · rename_i results heq
      injection h with h1
      rw [← h1]
      simp [List.length_eq_zero]

/-- A single-page oracle on which the whole pipeline succeeds. -/
def okOracle : Oracle where
  getPage := fun pid =>
    if pid = "root" then .ok ⟨"root", "Root", [], some 5⟩ else .error "no page"
  beginExport := fun pid a =>
    if pid = "root" ∧ a = 0 then .ok "e1" else .error "bad"
  getStatus := fun eid a =>
    if eid = "e1" ∧ a = 1 then .ok ⟨.complete, some "L", none⟩ else .error "bad"
  fetchContent := fun link a =>
    if link = "L" ∧ a = 0 then .ok "" else .error "bad"

def goodConfig : Configuration := ⟨true, "k"⟩

def okOut : CombinedExportResult × CacheState × List ApiCall :=
  (runExport okOracle goodConfig 0 ⟨[], []⟩ "root" "d" (some 0) 2).toOption.getD
    ({ success := false, totalPages := 0, successfulPages := 0,
       failedPages := [], combinedContent := "", errMsg := none }, ⟨[], []⟩, [])

/-- Witness for C1 on a concrete non-throwing run. -/
theorem spec_C1_witness : okOut.1.success = true ↔ okOut.1.failedPages = [] :=
  spec_C1_success_iff_no_failures okOracle goodConfig 0 ⟨[], []⟩ "root" "d"
    (some 0) 2 okOut (by rfl)

/-! ### Discovery invariants: visited growth, fetch uniqueness -/

/-- Invariant of one `buildHierarchy` call from visited set `visited`: the
visited set only grows (as a suffix), no page is fetched twice, and every
fetched page was fresh (not previously visited) and is visited
afterwards. -/
def BuildInv (visited : List String)
    (res : Except DiscErr (PageHierarchyNode × List String × FetchLog)) :
    Prop :=
  ∀ n v' log, res = .ok (n, v', log) →
    visited <:+ v' ∧ (log.map Prod.fst).Nodup ∧
      ∀ x ∈ log.map Prod.fst, x ∉ visited ∧ x ∈ v'

/-- The same invariant for the child loop. -/
def BuildListInv (visited : List String)
    (res : Except DiscErr (NodeList × List String × FetchLog)) : Prop :=
  ∀ ns v' log, res = .ok (ns, v', log) →
    visited <:+ v' ∧ (log.map Prod.fst).Nodup ∧
      ∀ x ∈ log.map Prod.fst, x ∉ visited ∧ x ∈ v'

theorem buildChildrenAux_inv
    (build : String → Nat → String → List String →
      Except DiscErr (PageHierarchyNode × List String × FetchLog))
    (cd : Nat) (pp : String)
    (hb : ∀ pid d pa v, BuildInv v (build pid d pa v)) :
    ∀ (ids : List String) (idx : Nat) (visited : List String),
      BuildListInv visited (buildChildrenAux build cd pp ids idx visited) := by
  intro ids
  induction ids with
  | nil =>
    intro idx visited ns v' log h
    simp only [buildChildrenAux, Except.ok.injEq, Prod.mk.injEq] at h
    obtain ⟨-, rfl, rfl⟩ := h
    simp
  | cons c rest ih =>
    intro idx visited ns v' log h
    unfold buildChildrenAux at h
    cases h1 : build c cd (pp ++ "." ++ toString idx) visited with
    | error e =>
      simp only [h1] at h
      exact Except.noConfusion h
    | ok r1 =>
      obtain ⟨node, v1, log1⟩ := r1
      simp only [h1] at h
      cases h2 : buildChildrenAux build cd pp rest (idx + 1) v1 with
      | error e =>
        simp only [h2] at h
        exact Except.noConfusion h
      | ok r2 =>
        obtain ⟨nodes, v2, log2⟩ := r2
        simp only [h2, Except.ok.injEq, Prod.mk.injEq] at h
        obtain ⟨-, rfl, rfl⟩ := h
        obtain ⟨hs1, hn1, hf1⟩ := hb c cd (pp ++ "." ++ toString idx) visited node v1 log1 h1
        obtain ⟨hs2, hn2, hf2⟩ := ih (idx + 1) v1 nodes v2 log2 h2
        refine ⟨hs1.trans hs2, ?_, ?_⟩
        · rw [List.map_append]
          refine hn1.append hn2 ?_
          intro x hx1 hx2
          exact (hf2 x hx2).1 (hf1 x hx1).2
        · intro x hx
          rw [List.map_append, List.mem_append] at hx
          rcases hx with hx | hx
          · exact ⟨(hf1 x hx).1, hs2.subset (hf1 x hx).2⟩
          · refine ⟨fun hmem => (hf2 x hx).1 (hs1.subset hmem), (hf2 x hx).2⟩

theorem buildHierarchy_inv (o : Oracle) (docId : String)
    (maxDepth : Option Nat) :
    ∀ (fuel : Nat) (pid : String) (d : Nat) (pa : String)
      (visited : List String),
      BuildInv visited (buildHierarchy o docId maxDepth fuel pid d pa visited) := by
  intro fuel
  induction fuel with
  | zero =>
    intro pid d pa visited n v' log h
    exact absurd h (by simp [buildHierarchy])
  | succ f ih =>
    intro pid d pa visited n v' log h
    unfold buildHierarchy at h
    by_cases hv : pid ∈ visited
    · rw [if_pos hv] at h
      simp only [Except.ok.injEq, Prod.mk.injEq] at h
      obtain ⟨-, rfl, rfl⟩ := h
      simp
    · rw [if_neg hv] at h
      cases hg : o.getPage pid with
      | error msg =>
        simp only [hg] at h
        exact Except.noConfusion h
      | ok page =>
        simp only [hg] at h
        by_cases hrec : (shouldRecurse maxDepth d && !page.children.isEmpty) = true
        · rw [if_pos hrec] at h
          cases hc : buildChildrenAux
              (fun p2 d2 pa2 v2 => buildHierarchy o docId maxDepth f p2 d2 pa2 v2)
              (d + 1) pa page.children 1 (pid :: visited) with
          | error e =>
            simp only [hc] at h
            exact Except.noConfusion h
          | ok r =>
            obtain ⟨children, v2, logc⟩ := r
            simp only [hc, Except.ok.injEq, Prod.mk.injEq] at h
            obtain ⟨-, rfl, rfl⟩ := h
            obtain ⟨hs, hn, hf⟩ :=
              buildChildrenAux_inv _ (d + 1) pa
                (fun p2 d2 pa2 v2 => ih p2 d2 pa2 v2)
                page.children 1 (pid :: visited) children v2 logc hc
            have hsub : pid :: visited <:+ v2 := hs
            refine ⟨(List.suffix_cons pid visited).trans hsub, ?_, ?_⟩
            · simp only [List.map_cons]
              refine List.Nodup.cons ?_ hn
              intro hmem
              exact (hf pid hmem).1 (by simp)
            · intro x hx
              simp only [List.map_cons, List.mem_cons] at hx
              rcases hx with rfl | hx
              · exact ⟨hv, hsub.subset (by simp)⟩
              · refine ⟨fun hmem => (hf x hx).1 (by simp [hmem]), (hf x hx).2⟩
        · rw [if_neg hrec] at h
          simp only [Except.ok.injEq, Prod.mk.injEq] at h
          obtain ⟨-, rfl, rfl⟩ := h
          refine ⟨List.suffix_cons pid visited, by simp, ?_⟩
          intro x hx
          simp only [List.map_cons, List.map_nil, List.mem_singleton] at hx
          subst hx
          exact ⟨hv, by simp⟩

/-- C5: cycle protection of discovery.  (1) A pageId already in the run's
visited set terminates that branch at once: the call returns the childless
`(Circular Reference)` placeholder, an unchanged visited set and an empty
fetch log — no page fetch, no recursion.  (2) In every completed
traversal, no pageId is fetched twice and no previously visited pageId is
fetched at all (the fetched pageIds are exactly the non-placeholder
nodes, so the tree re-enters no page), and the number of fetches is
bounded by the number of newly visited pages — discovery performs at most
one fetch per distinct page, so cyclic child references cannot make it
recurse unboundedly. -/
theorem spec_C5_cycle_protection (o : Oracle) (docId : String)
    (maxDepth : Option Nat) (fuel : Nat) (pid : String) (d : Nat)
    (pa : String) (visited : List String) :
    (pid ∈ visited →
      buildHierarchy o docId maxDepth (fuel + 1) pid d pa visited =
        .ok (circularNode pid docId d pa, visited, [])) ∧
    (∀ n v' log,
      buildHierarchy o docId maxDepth fuel pid d pa visited = .ok (n, v', log) →
      (log.map Prod.fst).Nodup ∧
      (∀ x ∈ log.map Prod.fst, x ∉ visited) ∧
      log.length ≤ v'.length - visited.length) := by
  constructor
  · intro hv
    unfold buildHierarchy
    rw [if_pos hv]
  · intro n v' log h
    obtain ⟨hs, hnodup, hfresh⟩ :=
      buildHierarchy_inv o docId maxDepth fuel pid d pa visited n v' log h
    refine ⟨hnodup, fun x hx => (hfresh x hx).1, ?_⟩
    obtain ⟨pre, hpre⟩ := hs
    have hsub : (log.map Prod.fst).toFinset ⊆ pre.toFinset := by
      intro x hx
      rw [List.mem_toFinset] at hx ⊢
      have hv' : x ∈ v' := (hfresh x hx).2
      rw [← hpre, List.mem_append] at hv'
      rcases hv' with hp | hp
      · exact hp
      · exact absurd hp (hfresh x hx).1
    calc log.length = (log.map Prod.fst).length := (List.length_map _ _).symm
      _ = (log.map Prod.fst).toFinset.card :=
          (List.toFinset_card_of_nodup hnodup).symm
      _ ≤ pre.toFinset.card := Finset.card_le_card hsub
      _ ≤ pre.length := pre.toFinset_card_le
      _ = v'.length - visited.length := by
          rw [← hpre, List.length_append]
          omega

/-- A document whose root page lists itself as its only child. -/
def cycOracle : Oracle where
  getPage := fun pid =>
    if pid = "r" then .ok ⟨"r", "R", ["r"], none⟩ else .error "no page"
  beginExport := fun _ _ => .error "unused"
  getStatus := fun _ _ => .error "unused"
  fetchContent := fun _ _ => .error "unused"

/-- Witness for C5 on the self-referential document: the revisited root
becomes a placeholder leaf, and the completed traversal fetched the one
distinct page exactly once. -/
theorem spec_C5_witness :
    buildHierarchy cycOracle "d" none 3 "r" 1 "0.1" ["r"] =
      .ok (circularNode "r" "d" 1 "0.1", ["r"], []) ∧
    ((([("r", 0)] : FetchLog).map Prod.fst).Nodup ∧
      (∀ x ∈ ([("r", 0)] : FetchLog).map Prod.fst, x ∉ ([] : List String)) ∧
      ([("r", 0)] : FetchLog).length ≤ ["r"].length - ([] : List String).length) :=
  ⟨(spec_C5_cycle_protection cycOracle "d" none 2 "r" 1 "0.1" ["r"]).1 (by decide),
    (spec_C5_cycle_protection cycOracle "d" none 3 "r" 0 "0" []).2
      (.mk "r" "d" "R" 0 "0" (.cons (circularNode "r" "d" 1 "0.1") .nil))
      ["r"] [("r", 0)] (by rfl)⟩

/-! ### Discovery depth bounds -/

theorem buildChildrenAux_depth
    (build : String → Nat → String → List String →
      Except DiscErr (PageHierarchyNode × List String × FetchLog))
    (dmax cd : Nat) (pp : String)
    (hb : ∀ pid pa v n v' log, build pid cd pa v = .ok (n, v', log) →
      (∀ e ∈ log, e.2 ≤ dmax) ∧ ∀ m ∈ preorder n, m.depth ≤ dmax) :
    ∀ (ids : List String) (idx : Nat) (visited : List String) ns v' log,
      buildChildrenAux build cd pp ids idx visited = .ok (ns, v', log) →
      (∀ e ∈ log, e.2 ≤ dmax) ∧ ∀ m ∈ preorderList ns, m.depth ≤ dmax := by
  intro ids
  induction ids with
  | nil =>
    intro idx visited ns v' log h
    simp only [buildChildrenAux, Except.ok.injEq, Prod.mk.injEq] at h
    obtain ⟨rfl, -, rfl⟩ := h
    simp [preorderList]
  | cons c rest ih =>
    intro idx visited ns v' log h
    unfold buildChildrenAux at h
    cases h1 : build c cd (pp ++ "." ++ toString idx) visited with
    | error e =>
      simp only [h1] at h
      exact Except.noConfusion h
    | ok r1 =>
      obtain ⟨node, v1, log1⟩ := r1
      simp only [h1] at h
      cases h2 : buildChildrenAux build cd pp rest (idx + 1) v1 with
      | error e =>
        simp only [h2] at h
        exact Except.noConfusion h
      | ok r2 =>
        obtain ⟨nodes, v2, log2⟩ := r2
        simp only [h2, Except.ok.injEq, Prod.mk.injEq] at h
        obtain ⟨rfl, -, rfl⟩ := h
        obtain ⟨hl1, hp1⟩ := hb c (pp ++ "." ++ toString idx) visited node v1 log1 h1
        obtain ⟨hl2, hp2⟩ := ih (idx + 1) v1 nodes v2 log2 h2
        refine ⟨fun e he => ?_, fun m hm => ?_⟩
        · rcases List.mem_append.mp he with he | he
          · exact hl1 e he
          · exact hl2 e he
        · rw [preorderList] at hm
          rcases List.mem_append.mp hm with hm | hm
          · exact hp1 m hm
          · exact hp2 m hm

theorem buildHierarchy_depth (o : Oracle) (docId : String) (dmax : Nat) :
    ∀ (fuel : Nat) (pid : String) (cd : Nat) (pa : String)
      (visited : List String), cd ≤ dmax →
      ∀ n v' log,
        buildHierarchy o docId (some dmax) fuel pid cd pa visited = .ok (n, v', log) →
        (∀ e ∈ log, e.2 ≤ dmax) ∧ ∀ m ∈ preorder n, m.depth ≤ dmax := by
  intro fuel
  induction fuel with
  | zero =>
    intro pid cd pa visited hcd n v' log h
    exact absurd h (by simp [buildHierarchy])
  | succ f ih =>
    intro pid cd pa visited hcd n v' log h
    unfold buildHierarchy at h
    by_cases hv : pid ∈ visited
    · rw [if_pos hv] at h
      simp only [Except.ok.injEq, Prod.mk.injEq] at h
      obtain ⟨rfl, -, rfl⟩ := h
      refine ⟨by simp, fun m hm => ?_⟩
      simp only [circularNode, preorder, preorderList, List.mem_singleton] at hm
      subst hm
      exact hcd
    · rw [if_neg hv] at h
      cases hg : o.getPage pid with
      | error msg =>
        simp only [hg] at h
        exact Except.noConfusion h
      | ok page =>
        simp only [hg] at h
        by_cases hrec : (shouldRecurse (some dmax) cd && !page.children.isEmpty) = true
        · rw [if_pos hrec] at h
          have hlt : cd < dmax := by
            have h1 := (Bool.and_eq_true _ _).mp hrec |>.1
            simpa [shouldRecurse] using h1
          cases hc : buildChildrenAux
              (fun p2 d2 pa2 v2 => buildHierarchy o docId (some dmax) f p2 d2 pa2 v2)
              (cd + 1) pa page.children 1 (pid :: visited) with
          | error e =>
            simp only [hc] at h
            exact Except.noConfusion h
          | ok r =>
            obtain ⟨children, v2, logc⟩ := r
            simp only [hc, Except.ok.injEq, Prod.mk.injEq] at h
            obtain ⟨rfl, -, rfl⟩ := h
            obtain ⟨hlc, hpc⟩ :=
              buildChildrenAux_depth _ dmax (cd + 1) pa
                (fun p2 pa2 va n2 v2a log2 hcall =>
                  ih p2 (cd + 1) pa2 va (by omega) n2 v2a log2 hcall)
                page.children 1 (pid :: visited) children v2 logc hc
            refine ⟨fun e he => ?_, fun m hm => ?_⟩
            · rcases List.mem_cons.mp he with rfl | he
              · exact hcd
              · exact hlc e he
            · rw [preorder] at hm
              rcases List.mem_cons.mp hm with rfl | hm
              · exact hcd
              · exact hpc m hm
        · rw [if_neg hrec] at h
          simp only [Except.ok.injEq, Prod.mk.injEq] at h
          obtain ⟨rfl, -, rfl⟩ := h
          refine ⟨fun e he => ?_, fun m hm => ?_⟩
          · rcases List.mem_singleton.mp he with rfl
            exact hcd
          · rw [preorder] at hm
            rcases List.mem_cons.mp hm with rfl | hm
            · exact hcd
            · simp [preorderList] at hm

theorem foldl_count_hierarchy (l : List PageHierarchyNode)
    (acc : PageCountResult) :
    (l.foldl
      (fun acc n =>
        { acc with
          totalPages := acc.totalPages + 1
          byDepth := bumpDepth n.depth acc.byDepth
          maxDepth := max acc.maxDepth n.depth }) acc).hierarchy =
      acc.hierarchy := by
  induction l generalizing acc with
  | nil => rfl
  | cons n rest ih => simp [List.foldl_cons, ih]

theorem countPages_hierarchy (h : PageHierarchyNode) :
    (countPages h).hierarchy = h := by
  unfold countPages
  exact foldl_count_hierarchy (preorder h) _

/-- C6: for every finite maximum depth d, a completed discovery never
issued a GetPage call for a node deeper than d (every fetch-log entry has
depth at most d), and every node of the returned hierarchy has depth at
most d. -/
theorem spec_C6_depth_bound (o : Oracle) (config : Configuration)
    (docId pid : String) (d fuel : Nat) (pc : PageCountResult)
    (log : FetchLog)
    (h : discoverPages o config docId pid (some d) fuel = .ok (pc, log)) :
    (∀ e ∈ log, e.2 ≤ d) ∧ ∀ n ∈ preorder pc.hierarchy, n.depth ≤ d := by
  unfold discoverPages at h
  by_cases hcfg : (!config.ok) = true
  · rw [if_pos hcfg] at h
    exact absurd h (by simp)
  · rw [if_neg hcfg] at h
    cases hb : buildHierarchy o docId (some d) fuel pid 0 "0" [] with
    | error e =>
      cases e <;> simp only [hb] at h <;> exact Except.noConfusion h
    | ok r =>
      obtain ⟨hierarchy, v, lg⟩ := r
      simp only [hb, Except.ok.injEq, Prod.mk.injEq] at h
      obtain ⟨h1, rfl⟩ := h
      obtain ⟨hl, hp⟩ :=
        buildHierarchy_depth o docId d fuel pid 0 "0" [] (by omega)
          hierarchy v lg hb
      refine ⟨hl, ?_⟩
      rw [← h1, countPages_hierarchy]
      exact hp

/-- A three-level document: root, child, grandchild. -/
def depthOracle : Oracle where
  getPage := fun pid =>
    if pid = "r" then .ok ⟨"r", "R", ["c"], none⟩
    else if pid = "c" then .ok ⟨"c", "C", ["g"], none⟩
    else if pid = "g" then .ok ⟨"g", "G", [], none⟩
    else .error "no page"
  beginExport := fun _ _ => .error "unused"
  getStatus := fun _ _ => .error "unused"
  fetchContent := fun _ _ => .error "unused"

def c6res : PageCountResult × FetchLog :=
  (discoverPages depthOracle goodConfig "d" "r" (some 1) 3).toOption.getD
    (⟨0, [], oneNode, 0⟩, [])

/-- Witness for C6: discovery of the three-level document at depth limit 1
fetched only the root and the child, and the tree stops at depth 1. -/
theorem spec_C6_witness :
    (∀ e ∈ c6res.2, e.2 ≤ 1) ∧ ∀ n ∈ preorder c6res.1.hierarchy, n.depth ≤ 1 :=
  spec_C6_depth_bound depthOracle goodConfig "d" "r" 1 3 c6res.1 c6res.2
    (by rfl)

/-! ### The cached second export run -/

/-- A one-page document with a version marker, whose export yields
content `C`. -/
def c7Oracle (C : String) : Oracle where
  getPage := fun pid =>
    if pid = "root" then .ok ⟨"root", "Root", [], some 500⟩ else .error "no page"
  beginExport := fun pid a =>
    if pid = "root" ∧ a = 0 then .ok "e1" else .error "bad"
  getStatus := fun eid a =>
    if eid = "e1" ∧ a = 1 then .ok ⟨.complete, some "L", none⟩ else .error "bad"
  fetchContent := fun link a =>
    if link = "L" ∧ a = 0 then .ok C else .error "bad"

/-- First export run, from empty caches, at clock `now1`. -/
def c7run1 (C : String) (now1 : Nat) :
    CombinedExportResult × CacheState × List ApiCall :=
  exportNestedPages (c7Oracle C) goodConfig now1 ⟨[], []⟩ "root" "d" (some 0) 2

/-- Second export run, over the caches left by the first, at `now2`. -/
def c7run2 (C : String) (now1 now2 : Nat) :
    CombinedExportResult × CacheState × List ApiCall :=
  exportNestedPages (c7Oracle C) goodConfig now2 (c7run1 C now1).2.1
    "root" "d" (some 0) 2

/-- C7, counterexample: the second run over the warm cache still performs
remote calls — one GetPage during discovery and one GetPage for the
`updatedAt` staleness check — so its remote-call count is not zero. -/
theorem spec_C7_counterexample :
    (c7run2 "Hello" 0 1).2.2 = [ApiCall.getPage "root", ApiCall.getPage "root"] ∧
    (c7run2 "Hello" 0 1).2.2 ≠ [] := by
  decide

/-- C7, amended: re-exporting an unchanged page (same `updatedAt` marker,
so the cached content is valid; absent markers the same holds within the
5-minute freshness window) returns identical combined content and
succeeds, and the second run performs no BeginExport, GetExportStatus or
content-fetch calls — but it does still issue one GetPage per page for
discovery and one for the staleness check. -/
theorem spec_C7_cached_rerun (C : String) (hC : C ≠ "") (now1 now2 : Nat) :
    (c7run2 C now1 now2).1.combinedContent =
      (c7run1 C now1).1.combinedContent ∧
    (c7run2 C now1 now2).1.success = true ∧
    (c7run2 C now1 now2).2.2 =
      [ApiCall.getPage "root", ApiCall.getPage "root"] := by
  obtain ⟨cl⟩ := C
  cases cl with
  | nil => exact absurd rfl hC
  | cons c cs => exact ⟨rfl, rfl, rfl⟩

/-- Witness for C7 at concrete content and clocks. -/
theorem spec_C7_witness :
    (c7run2 "Hello" 3 7).1.combinedContent =
      (c7run1 "Hello" 3).1.combinedContent ∧
    (c7run2 "Hello" 3 7).1.success = true ∧
    (c7run2 "Hello" 3 7).2.2 =
      [ApiCall.getPage "root", ApiCall.getPage "root"] :=
  spec_C7_cached_rerun "Hello" (by decide) 3 7

end CodaExport
